import Mathlib

/-!
Verification of the n8n REST client (`src/n8n-client.ts`).

The client is shallowly embedded: each method is a pure function from its
arguments (and, where the method consumes a fetch response, from an explicit
response value) to the request it issues and/or the value it returns.
JavaScript runtime values are modelled by the inductive `JSValue`; a thrown
JavaScript value is the `Except.error` side of an `Except JSValue _`.
JavaScript numbers are modelled as integers: every numeric literal appearing
in the client and in the claims is a small integer, and no arithmetic is
performed on numbers anywhere in the client.
-/

/-- A JavaScript runtime value, as far as the client manipulates them.
`error m` is an `Error` object whose `message` property is `m`. -/
inductive JSValue : Type where
  | null : JSValue
  | undefined : JSValue
  | bool : Bool → JSValue
  | num : Int → JSValue
  | str : String → JSValue
  | arr : List JSValue → JSValue
  | obj : List (String × JSValue) → JSValue
  | error : String → JSValue

/-- JavaScript truthiness: `false`, `0`, `""`, `null` and `undefined` are
falsy; every object (arrays, plain objects, errors) is truthy. -/
def JSValue.truthy : JSValue → Bool
  | .null => false
  | .undefined => false
  | .bool b => b
  | .num n => n != 0
  | .str s => s ≠ ""
  | .arr _ => true
  | .obj _ => true
  | .error _ => true

/-- Non-throwing part of property access: the value of property `k` on a
value that is not `null`/`undefined`.  Plain objects look the key up in
their field list; an `Error` exposes its `message`; every other access
yields `undefined` (no other built-in property is used by the client). -/
def JSValue.getFieldD (v : JSValue) (k : String) : JSValue :=
  match v with
  | .obj fs =>
    match fs.lookup k with
    | some x => x
    | none => .undefined
  | .error m => if k = "message" then .str m else .undefined
  | _ => .undefined

/-- Property access `v.k` as the code performs it: on `null` or `undefined`
it throws a `TypeError`, otherwise it yields `JSValue.getFieldD v k`. -/
def jsMember (v : JSValue) (k : String) : Except JSValue JSValue :=
  match v with
  | .null => .error (.error ("Cannot read properties of null (reading " ++ k ++ ")"))
  | .undefined => .error (.error ("Cannot read properties of undefined (reading " ++ k ++ ")"))
  | v => .ok (v.getFieldD k)

/-- Join a list of strings with commas. -/
def joinComma : List String → String
  | [] => ""
  | [s] => s
  | s :: rest => s ++ "," ++ joinComma rest

mutual

/-- `String(v)`: JavaScript string conversion, restricted to the value
shapes above.  An `Error` stringifies as `Error: <message>` (just `Error`
when the message is empty); arrays join their elements with commas with
`null`/`undefined` elements rendered empty; plain objects render as
`[object Object]`. -/
def jsToString : JSValue → String
  | .null => "null"
  | .undefined => "undefined"
  | .bool b => if b then "true" else "false"
  | .num n => toString n
  | .str s => s
  | .arr xs => joinComma (arrElemStrings xs)
  | .obj _ => "[object Object]"
  | .error m => if m = "" then "Error" else "Error: " ++ m

/-- Element strings for `Array.prototype.toString`: `null` and `undefined`
render as the empty string. -/
def arrElemStrings : List JSValue → List String
  | [] => []
  | .null :: vs => "" :: arrElemStrings vs
  | .undefined :: vs => "" :: arrElemStrings vs
  | v :: vs => jsToString v :: arrElemStrings vs

end

/-- Substring test on character lists: `hasSubList hay needle` holds when
`needle` occurs contiguously in `hay` (the check `String.prototype.includes`
performs). -/
def hasSubList : List Char → List Char → Bool
  | [], needle => needle.isEmpty
  | c :: t, needle => needle.isPrefixOf (c :: t) || hasSubList t needle

/-- `String.prototype.includes`, via `hasSubList` on the character data. -/
def jsIncludes (s sub : String) : Bool :=
  hasSubList s.data sub.data

/-- JSON string quoting.  Escapes the double quote and the backslash; the
client never serializes control characters, which are left untouched here. -/
def jsonQuote (s : String) : String :=
  "\"" ++ String.mk (s.data.foldr (fun c acc =>
    if c = '"' ∨ c = '\\' then '\\' :: c :: acc else c :: acc) []) ++ "\""

mutual

/-- `JSON.stringify(v)`.  `undefined` (and only `undefined`, of the shapes
above) is not serializable and yields no string; inside an array it renders
as `null`, inside an object its field is skipped.  An `Error` has no
enumerable own properties and serializes as `\x7b\x7d`. -/
def jsonStringify : JSValue → Option String
  | .undefined => none
  | .null => some "null"
  | .bool b => some (if b then "true" else "false")
  | .num n => some (toString n)
  | .str s => some (jsonQuote s)
  | .arr xs => some ("[" ++ joinComma (stringifyArrElems xs) ++ "]")
  | .obj fs => some ("\x7b" ++ joinComma (stringifyObjFields fs) ++ "\x7d")
  | .error _ => some "\x7b\x7d"

/-- Array element serialization: unserializable elements render as `null`. -/
def stringifyArrElems : List JSValue → List String
  | [] => []
  | v :: vs =>
    (match jsonStringify v with
     | some s => s
     | none => "null") :: stringifyArrElems vs

/-- Object field serialization: fields with unserializable values are
skipped. -/
def stringifyObjFields : List (String × JSValue) → List String
  | [] => []
  | (k, v) :: fs =>
    (match jsonStringify v with
     | some s => [jsonQuote k ++ ":" ++ s]
     | none => []) ++ stringifyObjFields fs

end

/-- `baseUrl.replace(/\/+$/, "")` on character lists: drop every trailing
`/`. -/
def stripSlashes (l : List Char) : List Char :=
  (l.reverse.dropWhile (fun c => c = '/')).reverse

/-- `baseUrl.replace(/\/+$/, "")`: the base URL with all trailing slash
characters removed (constructor, `n8n-client.ts` line 9). -/
def stripTrailingSlashes (s : String) : String :=
  String.mk (stripSlashes s.data)

example : jsonStringify (.obj [("active", .bool true)]) = some "\x7b\"active\":true\x7d" := by rfl
example : stripTrailingSlashes "http://x///" = "http://x" := by rfl
example : stripTrailingSlashes "http://x" = "http://x" := by rfl

example : jsIncludes "application/json; charset=utf-8" "application/json" = true := by decide
example : jsIncludes "text/html" "application/json" = false := by decide
example : jsToString (.error "boom") = "Error: boom" := by rfl
example : jsToString (.arr [.num 1, .num 2, .num 3]) = "1,2,3" := by rfl

/-- The sixteen uppercase hexadecimal digit characters. -/
def hexChars : List Char :=
  ['0', '1', '2', '3', '4', '5', '6', '7', '8', '9', 'A', 'B', 'C', 'D', 'E', 'F']

/-- The hexadecimal digit character for `n < 16` (defaulting to `0`). -/
def hexDigit (n : Nat) : Char :=
  hexChars.getD n '0'

/-- The UTF-8 byte sequence of a character, as natural numbers. -/
def utf8Bytes (c : Char) : List Nat :=
  let n := c.toNat
  if n < 0x80 then [n]
  else if n < 0x800 then
    [0xC0 ||| (n >>> 6), 0x80 ||| (n &&& 0x3F)]
  else if n < 0x10000 then
    [0xE0 ||| (n >>> 12), 0x80 ||| ((n >>> 6) &&& 0x3F), 0x80 ||| (n &&& 0x3F)]
  else
    [0xF0 ||| (n >>> 18), 0x80 ||| ((n >>> 12) &&& 0x3F),
     0x80 ||| ((n >>> 6) &&& 0x3F), 0x80 ||| (n &&& 0x3F)]

/-- `%XX` percent-escape of one byte, uppercase hex. -/
def pctByte (b : Nat) : List Char := ['%', hexDigit (b / 16), hexDigit (b % 16)]

/-- Percent-escapes of a byte list, concatenated. -/
def pctBytes : List Nat → List Char
  | [] => []
  | b :: bs => pctByte b ++ pctBytes bs

/-- The characters `encodeURIComponent` leaves unescaped:
`A-Z a-z 0-9 - _ . ! ~ * ' ( )`. -/
def uriComponentUnescaped (c : Char) : Bool :=
  ('A' ≤ c && c ≤ 'Z') || ('a' ≤ c && c ≤ 'z') || ('0' ≤ c && c ≤ '9') ||
    c = '-' || c = '_' || c = '.' || c = '!' || c = '~' || c = '*' ||
    c = Char.ofNat 39 || c = '(' || c = ')'

/-- `encodeURIComponent` on one character: kept verbatim when unescaped,
otherwise each UTF-8 byte is percent-escaped. -/
def encodeComponentChar (c : Char) : List Char :=
  if uriComponentUnescaped c then [c] else pctBytes (utf8Bytes c)

/-- `encodeURIComponent` on a character list. -/
def encodeComponentList : List Char → List Char
  | [] => []
  | c :: cs => encodeComponentChar c ++ encodeComponentList cs

/-- `encodeURIComponent(s)`. -/
def encodeURIComponent (s : String) : String :=
  String.mk (encodeComponentList s.data)

example : encodeURIComponent "a/b" = "a%2Fb" := by rfl
example : encodeURIComponent "wf-12.3" = "wf-12.3" := by rfl
example : encodeURIComponent "a b?" = "a%20b%3F" := by rfl

/-- The characters `URLSearchParams` serialization leaves unescaped
(the `application/x-www-form-urlencoded` set): `A-Z a-z 0-9 - _ . *`;
a space becomes `+` and every other character is percent-escaped per
UTF-8 byte. -/
def formUnescaped (c : Char) : Bool :=
  ('A' ≤ c && c ≤ 'Z') || ('a' ≤ c && c ≤ 'z') || ('0' ≤ c && c ≤ '9') ||
    c = '-' || c = '_' || c = '.' || c = '*'

/-- Form encoding of one character. -/
def formEncodeChar (c : Char) : List Char :=
  if c = ' ' then ['+']
  else if formUnescaped c then [c]
  else pctBytes (utf8Bytes c)

/-- Form encoding of a character list. -/
def formEncodeList : List Char → List Char
  | [] => []
  | c :: cs => formEncodeChar c ++ formEncodeList cs

/-- Form encoding (`URLSearchParams` serialization) of a string. -/
def formEncode (s : String) : String :=
  String.mk (formEncodeList s.data)

/-- Join a list of strings with `&`. -/
def joinAmp : List String → String
  | [] => ""
  | [s] => s
  | s :: rest => s ++ "&" ++ joinAmp rest

/-- `URLSearchParams.toString()` on an ordered key/value list. -/
def searchParamsToString (pairs : List (String × String)) : String :=
  joinAmp (pairs.map (fun kv => formEncode kv.1 ++ "=" ++ formEncode kv.2))

example : searchParamsToString [("limit", "10"), ("lastId", "abc")] = "limit=10&lastId=abc" := by rfl
example : searchParamsToString [] = "" := by rfl

/-- The options object passed to `fetch` via the request primitive: an
optional HTTP method override and an optional serialized body.  Headers are
not modelled: every claim under verification is independent of headers, and
the header merge touches no other part of the pipeline. -/
structure RequestOptions where
  method : Option String := none
  body : Option String := none

/-- The observable request `fetch` is called with: full URL, effective
method (`GET` when no override is given), optional body. -/
structure HttpRequest where
  url : String
  method : String
  body : Option String

/-- A fetch `Response`, as far as the request primitive inspects it:
status code and status text; the `content-type` header
(`none` when absent, as `headers.get` returns `null`); the result of
`response.text()` (`none` when reading the body rejects); and the result
of `response.json()` (`none` when parsing rejects).  `Response.json` is a
platform primitive, so the parsed JSON value is carried directly. -/
structure FetchResponse where
  status : Nat
  statusText : String
  contentTypeHeader : Option String
  textResult : Option String
  jsonResult : Option JSValue

/-- `response.ok`: the status is in the inclusive range 200–299. -/
def FetchResponse.ok (r : FetchResponse) : Bool :=
  200 ≤ r.status && r.status ≤ 299

/-- The client: `baseUrl` (trailing slashes already stripped) and `apiKey`. -/
structure N8nClient where
  baseUrl : String
  apiKey : String

/-- The constructor `new N8nClient(baseUrl, apiKey)`: strips every trailing
`/` from the base URL (`n8n-client.ts` lines 8–11). -/
def N8nClient.construct (baseUrl apiKey : String) : N8nClient :=
  { baseUrl := stripTrailingSlashes baseUrl, apiKey := apiKey }

/-- The URL the request primitive composes: `baseUrl + path`
(`n8n-client.ts` line 14). -/
def N8nClient.requestUrl (c : N8nClient) (path : String) : String :=
  c.baseUrl ++ path

/-- The request issued by the primitive: composed URL, method from the
options (default `GET`), body from the options (`n8n-client.ts`
lines 13–26). -/
def N8nClient.requestSent (c : N8nClient) (path : String) (opts : RequestOptions) :
    HttpRequest :=
  { url := c.requestUrl path
    method := opts.method.getD "GET"
    body := opts.body }

/-- Response handling of the request primitive (`n8n-client.ts` lines
28–42), as a pure function of the response.  Non-2xx: read the body as text
(an empty string when reading rejects) and throw an `Error` embedding
status, status text and body.  2xx with a content type containing
`application/json`: evaluate `json.data || json` — the member access throws
if the parsed value is `null`; a rejection of `response.json()` propagates
(its host-defined value is modelled as a generic `Error`).  Otherwise:
return the body text, a rejection of `response.text()` propagating
likewise. -/
def N8nClient.handleResponse (resp : FetchResponse) : Except JSValue JSValue :=
  if !resp.ok then
    let text := resp.textResult.getD ""
    .error (.error ("n8n API error " ++ toString resp.status ++ " " ++
      resp.statusText ++ ": " ++ text))
  else
    let contentType := resp.contentTypeHeader.getD ""
    if jsIncludes contentType "application/json" then
      match resp.jsonResult with
      | none => .error (.error "Unexpected end of JSON input")
      | some json =>
        match jsMember json "data" with
        | .error e => .error e
        | .ok d => .ok (if d.truthy then d else json)
    else
      match resp.textResult with
      | none => .error (.error "body stream already read")
      | some t => .ok (.str t)

/-- The full request primitive: the request sent, paired with the value
returned or thrown for a given response. -/
def N8nClient.request (c : N8nClient) (path : String) (opts : RequestOptions)
    (resp : FetchResponse) : HttpRequest × Except JSValue JSValue :=
  (c.requestSent path opts, N8nClient.handleResponse resp)


/-- `listWorkflows()`: GET `/api/v1/workflows` with default options
(`n8n-client.ts` lines 55–57). -/
def N8nClient.listWorkflows (c : N8nClient) (resp : FetchResponse) :
    HttpRequest × Except JSValue JSValue :=
  c.request "/api/v1/workflows" {} resp

/-- The path `getWorkflow` builds:
`/api/v1/workflows/` followed by the percent-encoded id
(`n8n-client.ts` line 60). -/
def N8nClient.getWorkflowPath (id : String) : String :=
  "/api/v1/workflows/" ++ encodeURIComponent id

/-- `getWorkflow(id)`: GET on `getWorkflowPath` (`n8n-client.ts`
lines 59–61). -/
def N8nClient.getWorkflow (c : N8nClient) (id : String) (resp : FetchResponse) :
    HttpRequest × Except JSValue JSValue :=
  c.request (N8nClient.getWorkflowPath id) {} resp

/-- `updateWorkflow(id, data)`: PATCH on the workflow path with
`JSON.stringify(data)` as the body (`n8n-client.ts` lines 70–75). -/
def N8nClient.updateWorkflow (c : N8nClient) (id : String) (data : JSValue)
    (resp : FetchResponse) : HttpRequest × Except JSValue JSValue :=
  c.request (N8nClient.getWorkflowPath id)
    { method := some "PATCH", body := jsonStringify data } resp

/-- `activateWorkflow(id)`: delegates to
`updateWorkflow(id, \x7bactive: true\x7d)` (`n8n-client.ts` lines 192–194). -/
def N8nClient.activateWorkflow (c : N8nClient) (id : String) (resp : FetchResponse) :
    HttpRequest × Except JSValue JSValue :=
  c.updateWorkflow id (.obj [("active", .bool true)]) resp

/-- `deactivateWorkflow(id)`: delegates to
`updateWorkflow(id, \x7bactive: false\x7d)` (`n8n-client.ts` lines 196–198). -/
def N8nClient.deactivateWorkflow (c : N8nClient) (id : String) (resp : FetchResponse) :
    HttpRequest × Except JSValue JSValue :=
  c.updateWorkflow id (.obj [("active", .bool false)]) resp

/-- The `params` argument of `getExecutions`: an optional numeric `limit`
and an optional string `lastId`.  `none` models an absent / `undefined`
(or `null`) entry — exactly the values `!= null` filters out. -/
structure ExecutionsParams where
  limit : Option Int := none
  lastId : Option String := none

/-- The `URLSearchParams` contents `getExecutions` builds
(`n8n-client.ts` lines 92–94): `query.set("limit", String(params.limit))`
when `limit` is not null/undefined, then likewise `lastId`. -/
def executionsPairs (params : ExecutionsParams) : List (String × String) :=
  (match params.limit with
   | some n => [("limit", toString n)]
   | none => []) ++
  (match params.lastId with
   | some s => [("lastId", s)]
   | none => [])

/-- `query.toString()` for `getExecutions`. -/
def executionsQuery (params : ExecutionsParams) : String :=
  searchParamsToString (executionsPairs params)

/-- The path `getExecutions` builds (`n8n-client.ts` lines 91–98): the
query string is appended after `?` only when non-empty (the truthiness
test on `query.toString()`). -/
def N8nClient.getExecutionsPath (params : ExecutionsParams) : String :=
  "/api/v1/executions" ++
    (if executionsQuery params = "" then "" else "?" ++ executionsQuery params)

/-- `getExecutions(params)`: GET on `getExecutionsPath`. -/
def N8nClient.getExecutions (c : N8nClient) (params : ExecutionsParams)
    (resp : FetchResponse) : HttpRequest × Except JSValue JSValue :=
  c.request (N8nClient.getExecutionsPath params) {} resp

/-- Strict equality `v === s` of a value against a string: true exactly
when `v` is a string with identical contents. -/
def strictEqStr (v : JSValue) (s : String) : Bool :=
  match v with
  | .str u => u = s
  | _ => false

/-- The callback `(t) => t.name === name` of `getNodeType` on a
non-nullish element: strict equality of the element's `name` property with
the string argument. -/
def nodeNameMatches (t : JSValue) (name : String) : Bool :=
  strictEqStr (t.getFieldD "name") name

/-- `types.find((t) => t.name === name)`: scan for the first match; the
property access inside the callback throws when an element is
`null`/`undefined`, which `find` propagates. -/
def jsFindByName (xs : List JSValue) (name : String) : Except JSValue (Option JSValue) :=
  match xs with
  | [] => .ok none
  | t :: rest =>
    match jsMember t "name" with
    | .error e => .error e
    | .ok v => if strictEqStr v name then .ok (some t) else jsFindByName rest name

/-- `getNodeType(name)` (`n8n-client.ts` lines 157–160), as a function of
the outcome of the node-type list request: a thrown failure propagates; on
an array the `find` scan runs (a `find` miss yields `undefined`); on any
non-array value `types.find` is not a function and a `TypeError` is
thrown. -/
def N8nClient.getNodeType (name : String) (outcome : Except JSValue JSValue) :
    Except JSValue JSValue :=
  match outcome with
  | .error e => .error e
  | .ok (.arr xs) =>
    match jsFindByName xs name with
    | .error e => .error e
    | .ok r => .ok (r.getD .undefined)
  | .ok _ => .error (.error "types.find is not a function")

/-- `testConnection()` (`n8n-client.ts` lines 201–208), as a function of
the outcome of `listWorkflows()`: `true` on success, `false` on any thrown
failure.  The catch arm performs no operation that can throw, so the
result type is plain `Bool`. -/
def N8nClient.testConnection (outcome : Except JSValue JSValue) : Bool :=
  match outcome with
  | .ok _ => true
  | .error _ => false

/-- `selfTest()` (`n8n-client.ts` lines 211–228), as a function of the
outcome of `listWorkflows()`.  On success: a status object whose
`workflowCount` is the array length (`0` for a non-array).  On a thrown
failure: the catch arm first reads `error.message` — an access that itself
throws a `TypeError` when the thrown value is `null` or `undefined` —
then builds the error status object with `error.message || "Connection
failed"` and `String(error)`. -/
def N8nClient.selfTest (outcome : Except JSValue JSValue) : Except JSValue JSValue :=
  match outcome with
  | .ok workflows =>
    .ok (.obj [("status", .str "ok"),
      ("message", .str "Connection successful"),
      ("details", .obj [("workflowCount",
        .num (match workflows with | .arr xs => (xs.length : Int) | _ => 0))])])
  | .error err =>
    match jsMember err "message" with
    | .error e2 => .error e2
    | .ok m =>
      .ok (.obj [("status", .str "error"),
        ("message", if m.truthy then m else .str "Connection failed"),
        ("details", .obj [("error", .str (jsToString err))])])

/-- `true` for every value except `null` and `undefined`: property access on
such a value cannot throw. -/
def notNullish : JSValue → Bool
  | .null => false
  | .undefined => false
  | _ => true

/-- On a non-nullish value, property access does not throw. -/
theorem jsMember_notNullish (v : JSValue) (k : String) (h : notNullish v = true) :
    jsMember v k = .ok (v.getFieldD k) := by
  cases v <;> simp_all [jsMember, notNullish]

/-- Dropping a prefix of characters satisfying the predicate leaves
`dropWhile` unchanged. -/
theorem dropWhile_replicate_append (p : Char → Bool) (c : Char) (hc : p c = true) :
    ∀ (k : Nat) (l : List Char),
      (List.replicate k c ++ l).dropWhile p = l.dropWhile p := by
  intro k
  induction k with
  | zero => intro l; rfl
  | succ n ih => intro l; simp [List.replicate_succ, List.dropWhile_cons, hc, ih]

/-- Appending trailing slashes does not change the stripped character
list. -/
theorem stripSlashes_append_replicate (l : List Char) (k : Nat) :
    stripSlashes (l ++ List.replicate k '/') = stripSlashes l := by
  unfold stripSlashes
  rw [List.reverse_append, List.reverse_replicate,
    dropWhile_replicate_append (fun c => c = '/') '/' (by decide) k l.reverse]

/-- A list is a prefix of itself followed by anything. -/
theorem isPrefixOf_append_self (l post : List Char) :
    l.isPrefixOf (l ++ post) = true := by
  induction l with
  | nil => simp
  | cons c t ih => simp [List.isPrefixOf_cons₂, ih]

/-- A prefix occurrence makes `hasSubList` true. -/
theorem hasSubList_of_isPrefixOf (hay needle : List Char)
    (h : needle.isPrefixOf hay = true) : hasSubList hay needle = true := by
  cases hay with
  | nil =>
    cases needle with
    | nil => rfl
    | cons c t => simp [List.isPrefixOf] at h
  | cons c t => simp [hasSubList, h]

/-- A contiguous occurrence makes `hasSubList` true. -/
theorem hasSubList_middle (pre mid post : List Char) :
    hasSubList (pre ++ mid ++ post) mid = true := by
  induction pre with
  | nil =>
    exact hasSubList_of_isPrefixOf _ _ (isPrefixOf_append_self mid post)
  | cons c t ih =>
    simp only [List.cons_append, hasSubList, Bool.or_eq_true]
    exact Or.inr ih

/-- C5: `testConnection()` returns `false` and never throws whenever the
underlying `listWorkflows` call fails for any thrown value, and returns
`true` whenever it succeeds, regardless of the payload. -/
theorem testConnection_false_on_failure_true_on_success :
    (∀ e : JSValue, N8nClient.testConnection (.error e) = false) ∧
    (∀ v : JSValue, N8nClient.testConnection (.ok v) = true) :=
  ⟨fun _ => rfl, fun _ => rfl⟩

/-- C7: `getExecutions(\x7blimit: 10, lastId: "abc"\x7d)` produces the path
`/api/v1/executions?limit=10&lastId=abc`, and `getExecutions(\x7b\x7d)`
produces `/api/v1/executions` with no query string; accordingly the
request URL is the base URL followed by that path. -/
theorem getExecutions_query_string :
    N8nClient.getExecutionsPath { limit := some 10, lastId := some "abc" } =
      "/api/v1/executions?limit=10&lastId=abc" ∧
    N8nClient.getExecutionsPath {} = "/api/v1/executions" ∧
    (∀ (c : N8nClient) (resp : FetchResponse),
      (c.getExecutions { limit := some 10, lastId := some "abc" } resp).1.url =
        c.baseUrl ++ "/api/v1/executions?limit=10&lastId=abc" ∧
      (c.getExecutions {} resp).1.url = c.baseUrl ++ "/api/v1/executions") :=
  ⟨rfl, rfl, fun _ _ => ⟨rfl, rfl⟩⟩

/-- C9: `activateWorkflow(id)` is exactly `updateWorkflow(id,
\x7bactive: true\x7d)` — same request (method PATCH, same path, same
serialized body) and same result for every response — and
`deactivateWorkflow(id)` is exactly `updateWorkflow(id,
\x7bactive: false\x7d)`. -/
theorem activateWorkflow_equals_updateWorkflow (c : N8nClient) (id : String)
    (resp : FetchResponse) :
    c.activateWorkflow id resp = c.updateWorkflow id (.obj [("active", .bool true)]) resp ∧
    c.deactivateWorkflow id resp = c.updateWorkflow id (.obj [("active", .bool false)]) resp ∧
    (c.activateWorkflow id resp).1 =
      { url := c.baseUrl ++ N8nClient.getWorkflowPath id,
        method := "PATCH",
        body := some "\x7b\"active\":true\x7d" } ∧
    (c.activateWorkflow id resp).2 =
      (c.updateWorkflow id (.obj [("active", .bool true)]) resp).2 ∧
    (c.deactivateWorkflow id resp).1 =
      { url := c.baseUrl ++ N8nClient.getWorkflowPath id,
        method := "PATCH",
        body := some "\x7b\"active\":false\x7d" } :=
  ⟨rfl, rfl, rfl, rfl, rfl⟩

/-- A string occurring contiguously is found by `jsIncludes`. -/
theorem jsIncludes_middle (pre mid post : String) :
    jsIncludes (pre ++ mid ++ post) mid = true := by
  show hasSubList (pre ++ mid ++ post).data mid.data = true
  simp only [String.data_append]
  exact hasSubList_middle pre.data mid.data post.data

/-- C6: for every base URL `s`, appending any number of trailing `/`
characters to it yields a client issuing exactly the same request URLs;
in particular `"http://x/"` and `"http://x"` both produce
`"http://x/api/v1/workflows"` for `listWorkflows()`. -/
theorem construct_trailing_slash_insensitive :
    (∀ (s key path : String) (k : Nat),
      (N8nClient.construct (s ++ String.mk (List.replicate k '/')) key).requestUrl path =
        (N8nClient.construct s key).requestUrl path) ∧
    (∀ resp : FetchResponse,
      ((N8nClient.construct "http://x/" "key").listWorkflows resp).1.url =
        "http://x/api/v1/workflows" ∧
      ((N8nClient.construct "http://x" "key").listWorkflows resp).1.url =
        "http://x/api/v1/workflows") := by
  constructor
  · intro s key path k
    show stripTrailingSlashes (s ++ String.mk (List.replicate k '/')) ++ path =
      stripTrailingSlashes s ++ path
    unfold stripTrailingSlashes
    rw [show (s ++ String.mk (List.replicate k '/')).data
        = s.data ++ List.replicate k '/' from String.data_append ..]
    rw [stripSlashes_append_replicate]
  · intro _; exact ⟨rfl, rfl⟩

/-- C2: a response with a status outside the success range makes the
request primitive throw an `Error` whose message embeds the numeric status
code, the status text and the body text verbatim; a failed body read is
replaced by the empty string. -/
theorem request_non2xx_throws (c : N8nClient) (path : String)
    (opts : RequestOptions) (resp : FetchResponse) (h : resp.ok = false) :
    ∃ m : String,
      (c.request path opts resp).2 = .error (.error m) ∧
      m = "n8n API error " ++ toString resp.status ++ " " ++ resp.statusText ++
        ": " ++ resp.textResult.getD "" ∧
      jsIncludes m (toString resp.status) = true ∧
      jsIncludes m resp.statusText = true ∧
      jsIncludes m (resp.textResult.getD "") = true := by
  refine ⟨_, ?_, rfl, ?_, ?_, ?_⟩
  · simp [N8nClient.request, N8nClient.requestSent, N8nClient.handleResponse, h]
  · rw [show "n8n API error " ++ toString resp.status ++ " " ++ resp.statusText ++
        ": " ++ resp.textResult.getD ""
      = "n8n API error " ++ toString resp.status ++
          (" " ++ resp.statusText ++ (": " ++ resp.textResult.getD "")) by
      simp [String.append_assoc]]
    exact jsIncludes_middle _ _ _
  · rw [show "n8n API error " ++ toString resp.status ++ " " ++ resp.statusText ++
        ": " ++ resp.textResult.getD ""
      = ("n8n API error " ++ toString resp.status ++ " ") ++ resp.statusText ++
          (": " ++ resp.textResult.getD "") by
      simp [String.append_assoc]]
    exact jsIncludes_middle _ _ _
  · rw [show "n8n API error " ++ toString resp.status ++ " " ++ resp.statusText ++
        ": " ++ resp.textResult.getD ""
      = ("n8n API error " ++ toString resp.status ++ " " ++ resp.statusText ++ ": ") ++
          resp.textResult.getD "" ++ "" by
      simp [String.append_assoc]]
    exact jsIncludes_middle _ _ _

/-- A concrete 404 response with body `not found`, used as a test input. -/
def respNotFound : FetchResponse :=
  { status := 404, statusText := "Not Found", contentTypeHeader := none,
    textResult := some "not found", jsonResult := none }

/-- C2 witness: a 404 response with statusText `Not Found` and body
`not found` makes the call fail with a message embedding all three. -/
theorem request_non2xx_throws_witness :
    respNotFound.ok = false ∧
    ∃ m : String,
      ((N8nClient.construct "http://x" "key").request "/api/v1/workflows" {}
        respNotFound).2 = .error (.error m) ∧
      m = "n8n API error " ++ toString respNotFound.status ++ " " ++
        respNotFound.statusText ++ ": " ++ respNotFound.textResult.getD "" ∧
      jsIncludes m (toString respNotFound.status) = true ∧
      jsIncludes m respNotFound.statusText = true ∧
      jsIncludes m (respNotFound.textResult.getD "") = true :=
  ⟨by decide,
    request_non2xx_throws (N8nClient.construct "http://x" "key") "/api/v1/workflows" {}
      respNotFound (by decide)⟩

/-- A 200 JSON response whose body is `\x7b"data":0\x7d`: the `data`
property is present with the falsy value `0`. -/
def respDataZero : FetchResponse :=
  { status := 200, statusText := "OK",
    contentTypeHeader := some "application/json",
    textResult := some "\x7b\"data\":0\x7d",
    jsonResult := some (.obj [("data", .num 0)]) }

/-- A 200 JSON response whose body is `\x7b"data":[1,2,3]\x7d`. -/
def respDataList : FetchResponse :=
  { status := 200, statusText := "OK",
    contentTypeHeader := some "application/json",
    textResult := some "\x7b\"data\":[1,2,3]\x7d",
    jsonResult := some (.obj [("data", .arr [.num 1, .num 2, .num 3])]) }

/-- A 200 JSON response whose body is `\x7b"id":5\x7d`, with no `data`
field. -/
def respIdOnly : FetchResponse :=
  { status := 200, statusText := "OK",
    contentTypeHeader := some "application/json",
    textResult := some "\x7b\"id\":5\x7d",
    jsonResult := some (.obj [("id", .num 5)]) }

/-- C1 counterexample: a 2xx JSON response whose body is `\x7b"data":0\x7d`
has a present, non-null `data` property with the falsy value `0`, yet the
request primitive returns the whole parsed body, not `0` — the source
tests `json.data || json` by truthiness, not by null/undefined. -/
theorem request_data_falsy_counterexample :
    ((N8nClient.construct "http://x" "key").request "/api/v1/workflows" {}
      respDataZero).2 = .ok (.obj [("data", .num 0)]) ∧
    JSValue.obj [("data", .num 0)] ≠ JSValue.num 0 :=
  ⟨rfl, fun h => JSValue.noConfusion h⟩

/-- C1 (amended): for every 2xx response whose content type contains
`application/json` and whose body parses to an object, the request
primitive returns the value of the object's `data` property when that
value is truthy and the parsed object itself otherwise (so for falsy
`data` values such as `0`, `""` or `false` the whole body is returned);
in particular `\x7b"data":[1,2,3]\x7d` yields `[1,2,3]` and `\x7b"id":5\x7d`
yields itself. -/
theorem request_json_unwraps_truthy_data :
    (∀ (c : N8nClient) (path : String) (opts : RequestOptions)
       (resp : FetchResponse) (fs : List (String × JSValue)),
      resp.ok = true →
      jsIncludes (resp.contentTypeHeader.getD "") "application/json" = true →
      resp.jsonResult = some (.obj fs) →
      (c.request path opts resp).2 =
        .ok (if (JSValue.getFieldD (.obj fs) "data").truthy
             then JSValue.getFieldD (.obj fs) "data" else .obj fs)) ∧
    N8nClient.handleResponse respDataList = .ok (.arr [.num 1, .num 2, .num 3]) ∧
    N8nClient.handleResponse respIdOnly = .ok (.obj [("id", .num 5)]) := by
  refine ⟨?_, rfl, rfl⟩
  intro c path opts resp fs hok hct hjson
  simp [N8nClient.request, N8nClient.handleResponse, hok, hct, hjson, jsMember]

/-- C1 witness: the amended statement applied to the `\x7b"data":[1,2,3]\x7d`
response. -/
theorem request_json_unwraps_truthy_data_witness :
    respDataList.ok = true ∧
    jsIncludes (respDataList.contentTypeHeader.getD "") "application/json" = true ∧
    ((N8nClient.construct "http://x" "key").request "/api/v1/workflows" {}
      respDataList).2 = .ok (.arr [.num 1, .num 2, .num 3]) :=
  ⟨by decide, by decide,
    request_json_unwraps_truthy_data.1 (N8nClient.construct "http://x" "key")
      "/api/v1/workflows" {} respDataList [("data", .arr [.num 1, .num 2, .num 3])]
      (by decide) (by decide) rfl⟩

/-- C3 counterexample: when the underlying list call's thrown value is
`null`, `selfTest` does not return a status object — its own catch arm
reads `error.message`, which throws a `TypeError` on `null`, so `selfTest`
itself throws. -/
theorem selfTest_throws_on_null_counterexample :
    N8nClient.selfTest (.error .null) =
      .error (.error "Cannot read properties of null (reading message)") := rfl

/-- C3 (amended): for every thrown failure whose value is not `null` or
`undefined` (any other value, `Error` or not), `selfTest` returns a
`status: "error"` object capturing `String(error)` in `details.error` —
and for an `Error` that string contains the message; when the thrown value
is `null` or `undefined`, `selfTest` itself throws a `TypeError` from the
`error.message` access.  On success it returns `status: "ok"` with
`workflowCount` the array length — `0` for the empty array and for any
non-array value. -/
theorem selfTest_reports_status :
    (∀ e : JSValue, notNullish e = true →
      N8nClient.selfTest (.error e) =
        .ok (.obj [("status", .str "error"),
          ("message", if (e.getFieldD "message").truthy then e.getFieldD "message"
                      else .str "Connection failed"),
          ("details", .obj [("error", .str (jsToString e))])])) ∧
    (∀ m : String, jsIncludes (jsToString (.error m)) m = true) ∧
    N8nClient.selfTest (.ok (.arr [])) =
      .ok (.obj [("status", .str "ok"), ("message", .str "Connection successful"),
        ("details", .obj [("workflowCount", .num 0)])]) ∧
    (∀ xs : List JSValue, N8nClient.selfTest (.ok (.arr xs)) =
      .ok (.obj [("status", .str "ok"), ("message", .str "Connection successful"),
        ("details", .obj [("workflowCount", .num (xs.length : Int))])])) ∧
    (∀ v : JSValue, (∀ xs : List JSValue, v ≠ .arr xs) →
      N8nClient.selfTest (.ok v) =
        .ok (.obj [("status", .str "ok"), ("message", .str "Connection successful"),
          ("details", .obj [("workflowCount", .num 0)])])) := by
  refine ⟨?_, ?_, rfl, ?_, ?_⟩
  · intro e he
    simp [N8nClient.selfTest, jsMember_notNullish e "message" he]
  · intro m
    by_cases hm : m = ""
    · subst hm; decide
    · show jsIncludes (jsToString (.error m)) m = true
      rw [show jsToString (.error m) = "Error: " ++ m from by simp [jsToString, hm]]
      rw [show ("Error: " ++ m : String) = "Error: " ++ m ++ "" from by
        simp [String.append_assoc]]
      exact jsIncludes_middle "Error: " m ""
  · intro xs; rfl
  · intro v hv
    cases v with
    | arr xs => exact absurd rfl (hv xs)
    | null => rfl
    | undefined => rfl
    | bool b => rfl
    | num n => rfl
    | str s => rfl
    | obj fs => rfl
    | error m => rfl

/-- C3 witness: the amended statement applied to a thrown
`Error("boom")`. -/
theorem selfTest_reports_status_witness :
    notNullish (.error "boom") = true ∧
    N8nClient.selfTest (.error (.error "boom")) =
      .ok (.obj [("status", .str "error"), ("message", .str "boom"),
        ("details", .obj [("error", .str "Error: boom")])]) :=
  ⟨by decide, by
    have h := selfTest_reports_status.1 (.error "boom") (by decide)
    simpa using h⟩

/-- On a non-nullish head, one step of the `find` scan is an `if` on the
callback. -/
theorem jsFindByName_cons (t : JSValue) (rest : List JSValue) (name : String)
    (ht : notNullish t = true) :
    jsFindByName (t :: rest) name =
      if nodeNameMatches t name then .ok (some t) else jsFindByName rest name := by
  show (match jsMember t "name" with
        | .error e => .error e
        | .ok v => if strictEqStr v name then Except.ok (some t)
                   else jsFindByName rest name) =
      if nodeNameMatches t name then .ok (some t) else jsFindByName rest name
  rw [jsMember_notNullish t "name" ht]
  rfl

/-- A scan over non-nullish elements none of which matches yields no
result. -/
theorem jsFindByName_none (name : String) :
    ∀ xs : List JSValue, xs.all notNullish = true →
      (∀ t ∈ xs, nodeNameMatches t name = false) →
      jsFindByName xs name = .ok none := by
  intro xs
  induction xs with
  | nil => intro _ _; rfl
  | cons t rest ih =>
    intro hall hnone
    rw [List.all_cons, Bool.and_eq_true] at hall
    rw [jsFindByName_cons t rest name hall.1]
    rw [if_neg (by simp [hnone t (List.mem_cons_self t rest)])]
    exact ih hall.2 (fun u hu => hnone u (List.mem_cons_of_mem t hu))

/-- A scan over non-nullish elements returns the element at the first
matching index. -/
theorem jsFindByName_first (name : String) :
    ∀ (xs : List JSValue) (i : Nat) (hi : i < xs.length),
      xs.all notNullish = true →
      nodeNameMatches xs[i] name = true →
      (∀ j, (hj : j < i) → nodeNameMatches xs[j] name = false) →
      jsFindByName xs name = .ok (some xs[i]) := by
  intro xs
  induction xs with
  | nil => intro i hi; simp at hi
  | cons t rest ih =>
    intro i hi hall hmatch hbefore
    rw [List.all_cons, Bool.and_eq_true] at hall
    rw [jsFindByName_cons t rest name hall.1]
    cases i with
    | zero =>
      simp only [List.getElem_cons_zero] at hmatch ⊢
      rw [if_pos hmatch]
    | succ i' =>
      have h0 : nodeNameMatches t name = false := by
        have := hbefore 0 (Nat.succ_pos i')
        simpa using this
      rw [if_neg (by simp [h0])]
      simp only [List.getElem_cons_succ] at hmatch ⊢
      have hi' : i' < rest.length := by
        simp only [List.length_cons] at hi
        omega
      exact ih i' hi' hall.2 hmatch
        (fun j hj => by
          have := hbefore (j + 1) (Nat.succ_lt_succ hj)
          simpa using this)

/-- C4: for every name and every successful node-type list response (a
list of node-type values, hence none of them `null`/`undefined`),
`getNodeType(name)` returns the first element whose `name` field is
exactly (case-sensitively) the string argument, and `undefined` when no
element matches. -/
theorem getNodeType_first_exact_match :
    (∀ (name : String) (xs : List JSValue),
      xs.all notNullish = true →
      (∀ t ∈ xs, nodeNameMatches t name = false) →
      N8nClient.getNodeType name (.ok (.arr xs)) = .ok .undefined) ∧
    (∀ (name : String) (xs : List JSValue) (i : Nat) (hi : i < xs.length),
      xs.all notNullish = true →
      nodeNameMatches xs[i] name = true →
      (∀ j, (hj : j < i) → nodeNameMatches xs[j] name = false) →
      N8nClient.getNodeType name (.ok (.arr xs)) = .ok xs[i]) := by
  constructor
  · intro name xs hall hnone
    show (match jsFindByName xs name with
          | .error e => (Except.error e : Except JSValue JSValue)
          | .ok r => Except.ok (r.getD .undefined)) = .ok .undefined
    rw [jsFindByName_none name xs hall hnone]
    rfl
  · intro name xs i hi hall hmatch hbefore
    show (match jsFindByName xs name with
          | .error e => (Except.error e : Except JSValue JSValue)
          | .ok r => Except.ok (r.getD .undefined)) = .ok xs[i]
    rw [jsFindByName_first name xs i hi hall hmatch hbefore]
    rfl

/-- A concrete two-element node-type list used as a test input. -/
def nodeTypesFixture : List JSValue :=
  [.obj [("name", .str "n8n-nodes-base.httpRequest")],
   .obj [("name", .str "n8n-nodes-base.set")]]

/-- C4 witness: on the two-element fixture, looking up the second name
returns the second element. -/
theorem getNodeType_first_exact_match_witness :
    nodeTypesFixture.all notNullish = true ∧
    N8nClient.getNodeType "n8n-nodes-base.set" (.ok (.arr nodeTypesFixture)) =
      .ok (.obj [("name", .str "n8n-nodes-base.set")]) := by
  refine ⟨by decide, ?_⟩
  exact getNodeType_first_exact_match.2 "n8n-nodes-base.set" nodeTypesFixture 1
    (by decide) (by decide) (by decide)
    (by intro j hj
        have hj0 : j = 0 := by omega
        subst hj0
        exact (by decide :
          nodeNameMatches (nodeTypesFixture.get ⟨0, Nat.succ_pos 1⟩)
            "n8n-nodes-base.set" = false))

/-- `List.getD` yields the default or a list element. -/
theorem getD_mem_cons {α : Type} : ∀ (l : List α) (n : Nat) (d : α), l.getD n d ∈ d :: l := by
  intro l
  induction l with
  | nil => intro n d; simp [List.getD]
  | cons a t ih =>
    intro n d
    cases n with
    | zero => simp [List.getD_cons_zero]
    | succ n' =>
      rw [List.getD_cons_succ]
      rcases List.mem_cons.mp (ih n' d) with h | h
      · exact List.mem_cons.mpr (Or.inl h)
      · exact List.mem_cons.mpr (Or.inr (List.mem_cons.mpr (Or.inr h)))

/-- Every hex digit character is one of the sixteen. -/
theorem hexDigit_mem (n : Nat) : hexDigit n ∈ hexChars := by
  rcases List.mem_cons.mp (getD_mem_cons hexChars n '0') with h | h
  · rw [show hexDigit n = hexChars.getD n '0' from rfl, h]; decide
  · exact h

/-- Characters of one percent-escape: `%` or a hex digit. -/
theorem pctByte_mem (b : Nat) (c : Char) (hc : c ∈ pctByte b) :
    c = '%' ∨ c ∈ hexChars := by
  simp only [pctByte, List.mem_cons, List.not_mem_nil, or_false] at hc
  rcases hc with h | h | h
  · exact Or.inl h
  · exact Or.inr (h ▸ hexDigit_mem (b / 16))
  · exact Or.inr (h ▸ hexDigit_mem (b % 16))

/-- Characters of a percent-escape run: `%` or a hex digit. -/
theorem pctBytes_mem : ∀ (bs : List Nat) (c : Char), c ∈ pctBytes bs →
    c = '%' ∨ c ∈ hexChars := by
  intro bs
  induction bs with
  | nil => intro c hc; simp [pctBytes] at hc
  | cons b rest ih =>
    intro c hc
    have hc' : c ∈ pctByte b ++ pctBytes rest := hc
    rcases List.mem_append.mp hc' with h | h
    · exact pctByte_mem b c h
    · exact ih c h

/-- Characters produced by encoding one character: the character itself
when unescaped, otherwise `%` or a hex digit. -/
theorem encodeComponentChar_mem (a c : Char) (hc : c ∈ encodeComponentChar a) :
    uriComponentUnescaped c = true ∨ c = '%' ∨ c ∈ hexChars := by
  unfold encodeComponentChar at hc
  by_cases h : uriComponentUnescaped a = true
  · rw [if_pos h] at hc
    simp only [List.mem_cons, List.not_mem_nil, or_false] at hc
    subst hc
    exact Or.inl h
  · rw [if_neg h] at hc
    exact Or.inr (pctBytes_mem _ c hc)

/-- Characters of an encoded character list: unescaped, `%`, or hex. -/
theorem encodeComponentList_mem : ∀ (l : List Char) (c : Char),
    c ∈ encodeComponentList l →
    uriComponentUnescaped c = true ∨ c = '%' ∨ c ∈ hexChars := by
  intro l
  induction l with
  | nil => intro c hc; simp [encodeComponentList] at hc
  | cons a rest ih =>
    intro c hc
    have hc' : c ∈ encodeComponentChar a ++ encodeComponentList rest := hc
    rcases List.mem_append.mp hc' with h | h
    · exact encodeComponentChar_mem a c h
    · exact ih c h

/-- Any character `encodeURIComponent` can output is not a path or query
delimiter. -/
theorem encoded_char_safe (c : Char)
    (h : uriComponentUnescaped c = true ∨ c = '%' ∨ c ∈ hexChars) :
    c ≠ '/' ∧ c ≠ '?' ∧ c ≠ '#' := by
  rcases h with h | h | h
  · refine ⟨?_, ?_, ?_⟩ <;> (intro hcq; subst hcq; exact absurd h (by decide))
  · subst h; refine ⟨by decide, by decide, by decide⟩
  · have hall : ∀ x ∈ hexChars, x ≠ '/' ∧ x ≠ '?' ∧ x ≠ '#' := by decide
    exact hall c h

/-- C8: every character of a percent-encoded id is free of the URL
delimiters `/`, `?` and `#`, so the path built by the id-taking methods is
well-formed — the id contributes a single path segment; the path is
`/api/v1/workflows/` followed by the encoded id, and in particular the id
`a/b` produces `/api/v1/workflows/a%2Fb`. -/
theorem getWorkflowPath_percent_encodes :
    (∀ (id : String) (c : Char), c ∈ (encodeURIComponent id).data →
      c ≠ '/' ∧ c ≠ '?' ∧ c ≠ '#') ∧
    (∀ id : String,
      N8nClient.getWorkflowPath id = "/api/v1/workflows/" ++ encodeURIComponent id) ∧
    N8nClient.getWorkflowPath "a/b" = "/api/v1/workflows/a%2Fb" := by
  refine ⟨?_, fun _ => rfl, rfl⟩
  intro id c hc
  exact encoded_char_safe c (encodeComponentList_mem id.data c hc)

/-- C8 witness: the statement applied to the id `a/b` and the character
`%`, which does occur in its encoding. -/
theorem getWorkflowPath_percent_encodes_witness :
    ('%' ∈ (encodeURIComponent "a/b").data) ∧
    ('%' ≠ '/' ∧ '%' ≠ '?' ∧ '%' ≠ '#') :=
  ⟨by decide, getWorkflowPath_percent_encodes.1 "a/b" '%' (by decide)⟩

/-- A serialized `key=value` pair is never the empty string. -/
theorem formPair_ne_empty (k v : String) :
    formEncode k ++ "=" ++ formEncode v ≠ "" := by
  intro h
  have hlen := congrArg String.length h
  rw [String.length_append, String.length_append,
    show ("=" : String).length = 1 from rfl,
    show ("" : String).length = 0 from rfl] at hlen
  omega

/-- C10: `getExecutions` omits a parameter only when it is absent
(null/undefined); present falsy values are serialized, so
`\x7blimit: 0\x7d` produces `?limit=0` and `\x7blastId: ""\x7d` produces
`?lastId=`; in general any present `limit` or `lastId` value appears
form-encoded in the query string, and only the fully-absent parameter set
yields no query string. -/
theorem getExecutions_includes_falsy_params :
    N8nClient.getExecutionsPath { limit := some 0 } = "/api/v1/executions?limit=0" ∧
    N8nClient.getExecutionsPath { lastId := some "" } = "/api/v1/executions?lastId=" ∧
    (∀ n : Int, N8nClient.getExecutionsPath { limit := some n, lastId := none } =
      "/api/v1/executions?limit=" ++ formEncode (toString n)) ∧
    (∀ s : String, N8nClient.getExecutionsPath { limit := none, lastId := some s } =
      "/api/v1/executions?lastId=" ++ formEncode s) ∧
    N8nClient.getExecutionsPath { limit := none, lastId := none } = "/api/v1/executions" := by
  refine ⟨rfl, rfl, ?_, ?_, rfl⟩
  · intro n
    unfold N8nClient.getExecutionsPath
    rw [show executionsQuery { limit := some n, lastId := none } =
        formEncode "limit" ++ "=" ++ formEncode (toString n) from rfl]
    rw [if_neg (formPair_ne_empty "limit" (toString n))]
    simp only [← String.append_assoc]
    rfl
  · intro s
    unfold N8nClient.getExecutionsPath
    rw [show executionsQuery { limit := none, lastId := some s } =
        formEncode "lastId" ++ "=" ++ formEncode s from rfl]
    rw [if_neg (formPair_ne_empty "lastId" s)]
    simp only [← String.append_assoc]
    rfl
